import Mathlib

/-!
Verification of the cursor-paginated ingestion engine in
`src/apis/rest-pagination.py` (class `PaginatedAPIClient`).

The embedding below translates the Python source into Lean:

* `APIResponse` mirrors the `@dataclass APIResponse` (items are kept
  abstract as a type parameter `α`, standing for the opaque record dicts).
* `fetch_page` embeds `PaginatedAPIClient.fetch_page`: the transport outcome
  of the single `_rate_limited_get` call is an explicit
  `Except ReqError (RawResponse α)` argument, and the Python control flow
  (`raise_for_status`, `response.json()`, the `except RequestException`
  clause, the `or`-fallbacks on body fields, the header default `999`)
  becomes explicit case analysis.  Errors that are *not*
  `requests.exceptions.RequestException` (e.g. the `AttributeError` raised
  by `body.get(...)` when the decoded JSON body is not an object) escape the
  `try` block, so `fetch_page` returns `Except PyError (APIResponse α)`.
* `fetchAllGo` / `fetch_all` embed the `while True` generator loop of
  `PaginatedAPIClient.fetch_all` with an explicit fuel argument (the loop
  has no termination guarantee in general); the remote source is a function
  from the attempt index and the sent cursor to the returned page, and the
  result collects the yielded items, the final `page_count` (= number of
  fetch attempts) and which of the two exit paths was taken.
* `rate_limited_get_issue` / `runAdmissions` embed the timing logic of
  `_rate_limited_get` over an idealized rational-valued clock, and
  `low_quota_sleep` / `nextAdmissionAfterPage` embed the
  `time.sleep(5)` low-quota branch at the end of the `fetch_all` loop
  followed by the admission computation of the next request.
* `fetch_parallel` embeds `PaginatedAPIClient.fetch_parallel`: the
  per-endpoint future outcome is a function `String → Except PyError _`,
  the `as_completed` iteration order is an explicit list argument, and the
  `results` dict is a lookup function built by left fold.
-/

namespace RestPagination

/-- Embeds the `@dataclass APIResponse` of `rest-pagination.py`:
`data : List[Dict]`, `next_cursor : Optional[str]`,
`total_count : Optional[int]`, `rate_limit_remaining : int`.
Items are opaque, hence the type parameter `α`. -/
structure APIResponse (α : Type) where
  data : List α
  next_cursor : Option String
  total_count : Option Int
  rate_limit_remaining : Int
deriving Repr, DecidableEq

/-- The sentinel empty page
`APIResponse(data=[], next_cursor=None, total_count=None, rate_limit_remaining=0)`
returned by `fetch_page` in its `except RequestException` clause, and by
`fetch_parallel` when a future raises. -/
def sentinelPage (α : Type) : APIResponse α :=
  { data := [], next_cursor := none, total_count := none, rate_limit_remaining := 0 }

/-- Transport-level errors of the single `self.session.get(...)` call plus
`raise ... JSONDecodeError` from `response.json()`: every constructor models a
subclass of `requests.exceptions.RequestException`, which the `except` clause
of `fetch_page` catches. -/
inductive ReqError where
  | timeout
  | connectionFailed
  | jsonDecode
deriving Repr, DecidableEq

/-- The one kind of exception in the modelled `fetch_page` body that is not a
`requests.exceptions.RequestException` and therefore escapes the `try` block:
the `AttributeError` raised by `body.get("data", [])` when `response.json()`
decoded to something that is not a JSON object (e.g. a top-level array). -/
inductive PyError where
  | attributeError
deriving Repr, DecidableEq

/-- The fields of a decoded JSON object body that `fetch_page` reads:
`data`, `next_cursor`, `pagination.next`, `total_count`, `pagination.total`
(each `none` when the key is missing / JSON null). -/
structure BodyObj (α : Type) where
  data : List α
  next_cursor : Option String
  paginationNext : Option String
  total_count : Option Int
  paginationTotal : Option Int
deriving Repr, DecidableEq

/-- Result of `response.json()` when decoding succeeds: either a JSON object
(whose relevant fields are in `BodyObj`) or a non-object JSON value
(array, string, number, ...), on which `body.get` raises `AttributeError`. -/
inductive JsonBody (α : Type) where
  | obj (b : BodyObj α)
  | nonObj
deriving Repr, DecidableEq

/-- A received HTTP response: status code, the outcome of JSON-decoding its
body (`none` = undecodable, i.e. `response.json()` raises
`requests.exceptions.JSONDecodeError`), and the `X-RateLimit-Remaining`
header when present (assumed numeric when present). -/
structure RawResponse (α : Type) where
  status : Nat
  body : Option (JsonBody α)
  rateLimitRemaining : Option Int
deriving Repr, DecidableEq

/-- `response.raise_for_status()` raises `requests.exceptions.HTTPError`
exactly for status codes 400–599. -/
def statusRaises (status : Nat) : Bool :=
  decide (400 ≤ status) && decide (status < 600)

/-- Python `a or b` on optional strings, as in
`body.get("next_cursor") or body.get("pagination", {}).get("next")`:
`None` and the empty string are falsy. -/
def pyOrStr (a b : Option String) : Option String :=
  match a with
  | some s => if s == "" then b else some s
  | none => b

/-- Python `a or b` on optional ints, as in
`body.get("total_count") or body.get("pagination", {}).get("total")`:
`None` and `0` are falsy. -/
def pyOrInt (a b : Option Int) : Option Int :=
  match a with
  | some n => if n == 0 then b else some n
  | none => b

/-- Embeds `PaginatedAPIClient.fetch_page` (lines 57–86). The argument is the
outcome of the underlying `_rate_limited_get` network call. Control flow of
the source, in order: a raised `RequestException` from the transport is
caught and yields the sentinel page; `raise_for_status` on a 4xx/5xx status
raises `HTTPError` (a `RequestException`), caught, sentinel; an undecodable
body raises `JSONDecodeError` (a `RequestException`), caught, sentinel; a
decoded non-object body makes `body.get("data", [])` raise `AttributeError`,
which is not caught and propagates; otherwise the `APIResponse` is built
with the `or`-fallback cursor and total fields and header default `999`. -/
def fetch_page {α : Type} (net : Except ReqError (RawResponse α)) :
    Except PyError (APIResponse α) :=
  match net with
  | .error _ => .ok (sentinelPage α)
  | .ok r =>
    if statusRaises r.status then .ok (sentinelPage α)
    else
      match r.body with
      | none => .ok (sentinelPage α)
      | some .nonObj => .error .attributeError
      | some (.obj b) =>
        .ok { data := b.data
              next_cursor := pyOrStr b.next_cursor b.paginationNext
              total_count := pyOrInt b.total_count b.paginationTotal
              rate_limit_remaining := r.rateLimitRemaining.getD 999 }

/-- `fetch_page` instrumented with the number of transport attempts it
consumes from an attempt-indexed transport oracle. The body of
`fetch_page` in the source contains exactly one call to
`_rate_limited_get` and no retry loop (nor is any `Retry`/`HTTPAdapter`
mounted on `self.session`, whose default performs no retries), so exactly
the oracle's attempt `0` is consulted and the attempt count is `1`. -/
def fetch_page_attempts {α : Type} (net : Nat → Except ReqError (RawResponse α)) :
    Except PyError (APIResponse α) × Nat :=
  (fetch_page (net 0), 1)

/-- Python truthiness of the cursor, as used by `if cursor:` and
`if not cursor ...` in the source: `None` and `""` are falsy. -/
def cursorTruthy : Option String → Bool
  | none => false
  | some s => !(s == "")

/-- The `if max_pages and page_count >= max_pages:` guard at the top of the
`fetch_all` loop (lines 98–101). `max_pages` is `Optional[int]`; Python
truthiness makes both `None` and `0` skip the check. -/
def maxPagesGuard (maxPages : Option Int) (pageCount : Nat) : Bool :=
  match maxPages with
  | none => false
  | some m => !(m == 0) && decide (m ≤ (pageCount : Int))

/-- The two exit paths of the `fetch_all` loop: the `break` after the
`not cursor or not result.data` check (stream completed), and the `break`
from the `max_pages` guard (stream truncated). These are the only exits. -/
inductive Outcome where
  | completed
  | truncatedByMaxPages
deriving Repr, DecidableEq

/-- Embeds the `while True` loop of `PaginatedAPIClient.fetch_all`
(lines 88–120). `fetcher i c` is the page the remote source returns to the
`i`-th fetch attempt when sent cursor `c` (abstracting `fetch_page` on the
fixed endpoint and page size, per the injected page-retrieval capability).
`fuel` bounds the number of loop iterations modelled; `none` means the loop
has not terminated within `fuel` iterations. On termination the result is
the list of yielded items, the final `page_count` (= number of fetch
attempts performed) and the exit path taken. The `time.sleep(5)` low-quota
branch does not affect values and is modelled separately by
`nextAdmissionAfterPage`. -/
def fetchAllGo {α : Type} (fetcher : Nat → Option String → APIResponse α)
    (maxPages : Option Int) :
    Nat → Option String → Nat → Option (List α × Nat × Outcome)
  | 0, _, _ => none
  | fuel + 1, cursor, pageCount =>
    if maxPagesGuard maxPages pageCount then
      some ([], pageCount, Outcome.truncatedByMaxPages)
    else if !cursorTruthy (fetcher pageCount cursor).next_cursor
        || (fetcher pageCount cursor).data.isEmpty then
      some ((fetcher pageCount cursor).data, pageCount + 1, Outcome.completed)
    else
      match fetchAllGo fetcher maxPages fuel (fetcher pageCount cursor).next_cursor (pageCount + 1) with
      | none => none
      | some (items, n, o) => some ((fetcher pageCount cursor).data ++ items, n, o)

/-- `fetch_all` starts the loop with `cursor = None` and `page_count = 0`. -/
def fetch_all {α : Type} (fetcher : Nat → Option String → APIResponse α)
    (maxPages : Option Int) (fuel : Nat) : Option (List α × Nat × Outcome) :=
  fetchAllGo fetcher maxPages fuel none 0

/-- The page-sequence shape of claim C1: every page before the last has a
non-empty item list and a (truthy, i.e. non-`None` and non-empty) cursor,
and the last page has an absent cursor or an empty item list. -/
def pagesChain {α : Type} : List (APIResponse α) → Prop
  | [] => False
  | [p] => p.next_cursor = none ∨ p.data = []
  | p :: q :: rest =>
    p.data ≠ [] ∧ cursorTruthy p.next_cursor = true ∧ pagesChain (q :: rest)

/-- Embeds the admission wait of `PaginatedAPIClient._rate_limited_get`
(lines 45–55) over an idealized rational clock: with `last` the recorded
`self._last_request_time` and `now` the time the call is made, the code
computes `elapsed = now - last` and sleeps `min_interval - elapsed` when
`elapsed < min_interval`; the returned value is the time the request is
actually issued. -/
def rate_limited_get_issue (minInterval last now : ℚ) : ℚ :=
  if now - last < minInterval then now + (minInterval - (now - last)) else now

/-- A sequential run of `_rate_limited_get` calls. Each list element is
`(call, dur)`: the time the call is made and the duration `dur ≥ 0` of the
network round trip. After each request the code sets
`self._last_request_time = time.time()` once the response has returned,
i.e. to admission time plus `dur`. The result is the list of admission
times. The client initializes `self._last_request_time = 0`. -/
def runAdmissions (minInterval : ℚ) : ℚ → List (ℚ × ℚ) → List ℚ
  | _, [] => []
  | last, (call, dur) :: rest =>
    rate_limited_get_issue minInterval last call ::
      runAdmissions minInterval (rate_limited_get_issue minInterval last call + dur) rest

/-- The low-quota branch at the end of the `fetch_all` loop body
(lines 117–119): `if result.rate_limit_remaining < 5: time.sleep(5)`.
`now` is the time the loop reaches the check; the result is the time the
loop proceeds to the next iteration. -/
def low_quota_sleep (now : ℚ) (remaining : Int) : ℚ :=
  if remaining < 5 then now + 5 else now

/-- Time at which the next request after a fetched page is admitted:
the loop runs `low_quota_sleep`, then the next `fetch_page` call goes
through the admission wait of `_rate_limited_get`, measured against the
recorded time `last` of the previous request. -/
def nextAdmissionAfterPage (minInterval last now : ℚ) (remaining : Int) : ℚ :=
  rate_limited_get_issue minInterval last (low_quota_sleep now remaining)

/-- `fetch_parallel`'s handling of one completed future (lines 135–140):
`future.result()` either returns the `fetch_page` result or raises, in
which case the coordinator records the sentinel `APIResponse([], None, None, 0)`. -/
def handleFuture {α : Type} (r : Except PyError (APIResponse α)) : APIResponse α :=
  match r with
  | .ok page => page
  | .error _ => { data := [], next_cursor := none, total_count := none, rate_limit_remaining := 0 }

/-- Embeds `PaginatedAPIClient.fetch_parallel` (lines 122–145).
`fetchResult ep` is the outcome of the future running `fetch_page(ep)`;
`completionOrder` is the order in which `as_completed` yields the futures
(a permutation of the submitted endpoints); the `results` dict is the
returned lookup function, built by assigning `results[endpoint] = ...` in
completion order. -/
def fetch_parallel {α : Type} (fetchResult : String → Except PyError (APIResponse α))
    (completionOrder : List String) : String → Option (APIResponse α) :=
  completionOrder.foldl
    (fun results ep => fun k => if k = ep then some (handleFuture (fetchResult ep)) else results k)
    (fun _ => none)

/-- A remote source that always reports another page: non-empty items and a
truthy continuation cursor on every fetch. -/
def endlessFetcher : Nat → Option String → APIResponse String :=
  fun _ _ => { data := ["item"], next_cursor := some "more", total_count := none,
               rate_limit_remaining := 999 }

/-- A transport that times out on every attempt (a transient failure in the
spec's taxonomy). -/
def alwaysTimeout : Nat → Except ReqError (RawResponse String) :=
  fun _ => .error .timeout

/-- A response whose body decodes to a JSON value that is not an object
(e.g. a top-level array) with a successful status: a malformed response in
the spec's error taxonomy. -/
def arrayBodyResponse : RawResponse String :=
  { status := 200, body := some .nonObj, rateLimitRemaining := some 42 }

/-- The failure classes of `fetch_page` that surface as
`requests.exceptions.RequestException`: a transport-level error, an HTTP
error status (400–599), or a syntactically undecodable body. -/
def requestsLevelFailure {α : Type} : Except ReqError (RawResponse α) → Prop
  | .error _ => True
  | .ok r => statusRaises r.status = true ∨ r.body = none

/-- The three-page scenario of the spec's end-to-end test: items
`[a,b]`, `[c]`, `[]` with cursors `"p2"`, `"p3"`, absent. -/
def threePages : List (APIResponse String) :=
  [ { data := ["a", "b"], next_cursor := some "p2", total_count := none,
      rate_limit_remaining := 999 },
    { data := ["c"], next_cursor := some "p3", total_count := none,
      rate_limit_remaining := 999 },
    { data := [], next_cursor := none, total_count := none,
      rate_limit_remaining := 999 } ]

/-- A per-endpoint fetch outcome in which exactly the endpoint `"b"` fails
(its future raises) and every other endpoint returns a one-item page
carrying its own name. -/
def oneFailingFetch : String → Except PyError (APIResponse String) :=
  fun ep =>
    if ep = "b" then Except.error PyError.attributeError
    else Except.ok { data := [ep], next_cursor := none, total_count := none,
                     rate_limit_remaining := 7 }

/-- A per-endpoint fetch outcome in which every endpoint succeeds with the
same empty page. -/
def allOkFetch : String → Except PyError (APIResponse String) :=
  fun _ => Except.ok (sentinelPage String)

/-! ## Helper lemmas -/

/-- The admission wait never admits earlier than `min_interval` after the
recorded time of the previous request. -/
theorem rate_limited_get_issue_ge_last (minInterval last now : ℚ) :
    last + minInterval ≤ rate_limited_get_issue minInterval last now := by
  unfold rate_limited_get_issue
  split <;> linarith

/-- The admission wait never admits before the time the call is made. -/
theorem rate_limited_get_issue_ge_now (minInterval last now : ℚ) :
    now ≤ rate_limited_get_issue minInterval last now := by
  unfold rate_limited_get_issue
  split <;> linarith

/-- Consecutive admissions in a sequential run are separated by at least
`min_interval`, for any starting recorded time, provided round-trip
durations are nonnegative. -/
theorem runAdmissions_chain (minInterval : ℚ) :
    ∀ (reqs : List (ℚ × ℚ)), (∀ p ∈ reqs, 0 ≤ p.2) → ∀ (last : ℚ),
      List.Chain' (fun x y => x + minInterval ≤ y) (runAdmissions minInterval last reqs) := by
  intro reqs
  induction reqs with
  | nil => intro _ _; simp [runAdmissions]
  | cons hd tl ih =>
    intro hdur last
    obtain ⟨call, dur⟩ := hd
    have hdur0 : 0 ≤ dur := hdur (call, dur) (by simp)
    have htl : ∀ p ∈ tl, 0 ≤ p.2 := fun p hp => hdur p (by simp [hp])
    rw [runAdmissions, List.chain'_cons']
    refine ⟨?_, ih htl _⟩
    intro y hy
    cases tl with
    | nil => simp [runAdmissions] at hy
    | cons hd2 tl2 =>
      obtain ⟨call2, dur2⟩ := hd2
      rw [runAdmissions] at hy
      simp only [List.head?_cons, Option.mem_def, Option.some.injEq] at hy
      subst hy
      have h1 := rate_limited_get_issue_ge_last minInterval
        (rate_limited_get_issue minInterval last call + dur) call2
      linarith

/-! ## Claims C2, C3, C4, C6 -/

/-- C2 counterexample: a fetch failure on which `fetch_page` propagates an
error to the caller instead of returning the sentinel empty page. The
response has status 200 but a malformed body (valid JSON that is not an
object, e.g. a top-level array); `body.get("data", [])` raises
`AttributeError`, which is not a `requests.exceptions.RequestException` and
so escapes the `except` clause. -/
theorem c2_counterexample :
    fetch_page (Except.ok arrayBodyResponse) = Except.error PyError.attributeError := by
  rfl

/-- C2 (amended): for every fetch failure surfaced as a
`requests.exceptions.RequestException` — a transport error, an HTTP error
status (400–599) from `raise_for_status`, or a syntactically undecodable
body — `fetch_page` returns the sentinel empty page (empty item list,
absent cursor, zero remaining-rate-budget) and propagates no error. -/
theorem c2_sentinel_on_requests_failure {α : Type} (net : Except ReqError (RawResponse α))
    (h : requestsLevelFailure net) : fetch_page net = Except.ok (sentinelPage α) := by
  match net with
  | .error e => rfl
  | .ok r =>
    unfold requestsLevelFailure at h
    by_cases hs : statusRaises r.status = true
    · simp [fetch_page, hs]
    · rcases h with h | h
      · exact absurd h hs
      · simp [fetch_page, hs, h]

/-- Witness for `c2_sentinel_on_requests_failure`: a concrete 500 response
with a well-formed body is a requests-level failure and yields the
sentinel page. -/
theorem c2_sentinel_on_requests_failure_witness :
    requestsLevelFailure (α := String)
      (Except.ok { status := 500,
                   body := some (.obj { data := ["x"], next_cursor := none,
                                        paginationNext := none, total_count := none,
                                        paginationTotal := none }),
                   rateLimitRemaining := some 3 }) ∧
    fetch_page (α := String)
      (Except.ok { status := 500,
                   body := some (.obj { data := ["x"], next_cursor := none,
                                        paginationNext := none, total_count := none,
                                        paginationTotal := none }),
                   rateLimitRemaining := some 3 }) = Except.ok (sentinelPage String) := by
  refine ⟨Or.inl (by decide), c2_sentinel_on_requests_failure _ (Or.inl (by decide))⟩

/-- C3: `fetch_page` performs no retries. On a transport that times out on
every attempt — a transient failure the claim says is retried up to the
configured maximum with exponential backoff — the code makes exactly one
network attempt and immediately returns the sentinel empty page: the body
of `fetch_page` contains a single `_rate_limited_get` call, no retry loop,
and no `Retry` adapter is mounted on the session. -/
theorem c3_single_attempt_no_retry :
    fetch_page_attempts alwaysTimeout = (Except.ok (sentinelPage String), 1) := by
  rfl

/-- C4: with the configured ceiling `requests_per_second = r > 0`, the gate
of `_rate_limited_get` (i) waits until at least `1/r` has elapsed since the
recorded time of the previous request before issuing, and (ii) in any
sequential run of requests with nonnegative round-trip durations, any two
consecutive admitted requests are at least `1/r` apart (the client starts
with `_last_request_time = 0`, and `min_interval = 1.0 / requests_per_second`). -/
theorem c4_min_interval_between_requests (r : ℚ) (hr : 0 < r)
    (reqs : List (ℚ × ℚ)) (hdur : ∀ p ∈ reqs, 0 ≤ p.2) :
    (∀ last now, last + 1 / r ≤ rate_limited_get_issue (1 / r) last now) ∧
    List.Chain' (fun x y => x + 1 / r ≤ y) (runAdmissions (1 / r) 0 reqs) := by
  refine ⟨fun last now => rate_limited_get_issue_ge_last _ _ _, ?_⟩
  exact runAdmissions_chain (1 / r) reqs hdur 0

/-- Witness for `c4_min_interval_between_requests`: rate 2 requests per time
unit, three back-to-back calls with round-trip durations 0, 1, 0. -/
theorem c4_min_interval_between_requests_witness :
    (0 : ℚ) < 2 ∧ (∀ p ∈ [((0 : ℚ), (0 : ℚ)), (0, 1), (2, 0)], (0 : ℚ) ≤ p.2) ∧
    List.Chain' (fun x y => x + 1 / 2 ≤ y)
      (runAdmissions (1 / 2) 0 [((0 : ℚ), (0 : ℚ)), (0, 1), (2, 0)]) := by
  refine ⟨by norm_num, ?_, ?_⟩
  · intro p hp
    simp only [List.mem_cons, List.not_mem_nil, or_false] at hp
    rcases hp with h | h | h <;> subst h <;> norm_num
  · refine (c4_min_interval_between_requests 2 (by norm_num)
      [((0 : ℚ), (0 : ℚ)), (0, 1), (2, 0)] ?_).2
    intro p hp
    simp only [List.mem_cons, List.not_mem_nil, or_false] at hp
    rcases hp with h | h | h <;> subst h <;> norm_num

/-- C6 counterexample: with the default configuration
(`requests_per_second = 10`, so `min_interval = 1/10`; cooldown 5;
threshold 5), previous request recorded at time 0 and the low-quota page
(remaining budget 0) processed at time 0, the next admission happens at
time 5 — not at least `min_interval + cooldown = 5 + 1/10` after the
previous request, as the claim requires: the `time.sleep(5)` elapses before
the gate measures from `_last_request_time`, so the two delays overlap
instead of adding. -/
theorem c6_counterexample :
    nextAdmissionAfterPage (1 / 10) 0 0 0 = 5 ∧
    ¬((0 : ℚ) + 1 / 10 + 5 ≤ nextAdmissionAfterPage (1 / 10) 0 0 0) := by
  have h : nextAdmissionAfterPage (1 / 10) 0 0 0 = 5 := by
    unfold nextAdmissionAfterPage low_quota_sleep rate_limited_get_issue
    norm_num
  exact ⟨h, by rw [h]; norm_num⟩

/-- C6 (amended): when a fetched page reports a remaining-rate-budget hint
strictly below 5 and traversal continues, the next request is admitted no
earlier than 5 time units after the low-quota page was processed, and no
earlier than `min_interval` after the recorded time of the previous
request — i.e. it is delayed by at least the larger of the cooldown delay
and the remaining steady-state wait, but not by their sum. -/
theorem c6_cooldown_before_next_admission (minInterval last now : ℚ) (remaining : Int)
    (hrem : remaining < 5) (hlast : last ≤ now) (hmin : 0 ≤ minInterval) :
    now + 5 ≤ nextAdmissionAfterPage minInterval last now remaining ∧
    last + minInterval ≤ nextAdmissionAfterPage minInterval last now remaining := by
  unfold nextAdmissionAfterPage low_quota_sleep
  rw [if_pos hrem]
  exact ⟨rate_limited_get_issue_ge_now _ _ _, rate_limited_get_issue_ge_last _ _ _⟩

/-- Witness for `c6_cooldown_before_next_admission`: default
`min_interval = 1/10`, previous request at time 0, page processed at time 2
with remaining budget 3. -/
theorem c6_cooldown_before_next_admission_witness :
    (3 : Int) < 5 ∧ (0 : ℚ) ≤ 2 ∧ (0 : ℚ) ≤ 1 / 10 ∧
    ((2 : ℚ) + 5 ≤ nextAdmissionAfterPage (1 / 10) 0 2 3 ∧
      (0 : ℚ) + 1 / 10 ≤ nextAdmissionAfterPage (1 / 10) 0 2 3) := by
  exact ⟨by norm_num, by norm_num, by norm_num,
    c6_cooldown_before_next_admission (1 / 10) 0 2 3 (by norm_num) (by norm_num) (by norm_num)⟩

/-- With `1 ≤ N`, the `max_pages` guard of the loop is exactly the
`page_count >= max_pages` comparison. -/
theorem maxPagesGuard_some (N pc : Nat) (hN : 1 ≤ N) :
    maxPagesGuard (some (N : Int)) pc = decide (N ≤ pc) := by
  have h0 : ¬((N : Int) = 0) := by omega
  by_cases hle : N ≤ pc
  · have hle' : (N : Int) ≤ (pc : Nat) := by exact_mod_cast hle
    simp [maxPagesGuard, h0, hle, hle']
  · have hle' : ¬((N : Int) ≤ (pc : Nat)) := by omega
    simp [maxPagesGuard, h0, hle, hle']

/-- Walking a chain of pages in which every page before the last continues
(non-empty items, truthy cursor) and the last terminates yields exactly the
concatenation of the pages' items, advances `page_count` by the number of
pages, and exits through the completed path — for any starting cursor and
page count, with fuel equal to the number of pages. -/
theorem fetchAllGo_chain {α : Type} (f : Nat → Option String → APIResponse α) :
    ∀ (ps : List (APIResponse α)) (n : Nat) (c : Option String),
      pagesChain ps →
      (∀ i c', i < ps.length → f (n + i) c' = ps.getD i (sentinelPage α)) →
      fetchAllGo f none ps.length c n =
        some ((ps.map APIResponse.data).flatten, n + ps.length, Outcome.completed) := by
  intro ps
  induction ps with
  | nil => intro n c h _; exact absurd h (by simp [pagesChain])
  | cons p rest ih =>
    intro n c hchain hf
    have hp : f n c = p := by simpa using hf 0 c (by simp)
    cases rest with
    | nil =>
      have hterm : (!cursorTruthy p.next_cursor || p.data.isEmpty) = true := by
        rcases hchain with h | h
        · simp [h, cursorTruthy]
        · simp [h]
      simp only [List.length_cons, List.length_nil, Nat.zero_add]
      rw [fetchAllGo, if_neg (by simp [maxPagesGuard]), hp, if_pos hterm]
      simp
    | cons q rest2 =>
      obtain ⟨hdata, hcur, hchain2⟩ := hchain
      have hcont : (!cursorTruthy p.next_cursor || p.data.isEmpty) = false := by
        simp [hcur, List.isEmpty_iff, hdata]
      have hf2 : ∀ i c', i < (q :: rest2).length →
          f (n + 1 + i) c' = (q :: rest2).getD i (sentinelPage α) := by
        intro i c' hi
        have h := hf (i + 1) c' (by simpa using Nat.succ_lt_succ hi)
        have harith : n + (i + 1) = n + 1 + i := by omega
        rw [harith] at h
        simpa using h
      have hrec := ih (n + 1) p.next_cursor hchain2 hf2
      simp only [List.length_cons] at hrec ⊢
      rw [fetchAllGo, if_neg (by simp [maxPagesGuard]), hp, if_neg (by simp [hcont]), hrec]
      simp only [List.map_cons, List.flatten_cons, Option.some.injEq, Prod.mk.injEq]
      exact ⟨trivial, by omega, trivial⟩

/-- Invariant of the `max_pages = N` loop: starting from `page_count ≤ N`,
the final `page_count` (= number of fetch attempts) never exceeds `N`. -/
theorem fetchAllGo_count_le {α : Type} (f : Nat → Option String → APIResponse α) (N : Nat)
    (hN : 1 ≤ N) :
    ∀ (fuel : Nat) (c : Option String) (pc : Nat), pc ≤ N →
      ∀ items k o, fetchAllGo f (some (N : Int)) fuel c pc = some (items, k, o) → k ≤ N := by
  intro fuel
  induction fuel with
  | zero => intro c pc _ items k o h; simp [fetchAllGo] at h
  | succ m ih =>
    intro c pc hpc items k o h
    rw [fetchAllGo] at h
    by_cases hg : maxPagesGuard (some (N : Int)) pc = true
    · rw [if_pos hg] at h
      simp only [Option.some.injEq, Prod.mk.injEq] at h
      obtain ⟨-, hk, -⟩ := h
      omega
    · rw [if_neg hg] at h
      rw [maxPagesGuard_some N pc hN] at hg
      have hlt : pc < N := by
        rcases Nat.lt_or_ge pc N with h' | h'
        · exact h'
        · exact absurd (by simpa using h') hg
      by_cases hc : (!cursorTruthy (f pc c).next_cursor || (f pc c).data.isEmpty) = true
      · rw [if_pos hc] at h
        simp only [Option.some.injEq, Prod.mk.injEq] at h
        obtain ⟨-, hk, -⟩ := h
        omega
      · rw [if_neg hc] at h
        rcases hrec : fetchAllGo f (some (N : Int)) m (f pc c).next_cursor (pc + 1) with
          _ | ⟨items2, k2, o2⟩
        · rw [hrec] at h; simp at h
        · rw [hrec] at h
          simp only [Option.some.injEq, Prod.mk.injEq] at h
          obtain ⟨_, hk, _⟩ := h
          have := ih (f pc c).next_cursor (pc + 1) (by omega) items2 k2 o2 hrec
          omega

/-- When every fetched page would continue the stream, the `max_pages = N`
loop performs the remaining `m = N - page_count` fetches and then exits
through the truncation path with final `page_count = N`. -/
theorem fetchAllGo_truncates {α : Type} (f : Nat → Option String → APIResponse α) (N : Nat)
    (hN : 1 ≤ N)
    (hcont : ∀ i c, (f i c).data ≠ [] ∧ cursorTruthy (f i c).next_cursor = true) :
    ∀ (m : Nat) (c : Option String) (pc : Nat), pc + m = N →
      ∃ items, fetchAllGo f (some (N : Int)) (m + 1) c pc =
        some (items, N, Outcome.truncatedByMaxPages) := by
  intro m
  induction m with
  | zero =>
    intro c pc hpc
    refine ⟨[], ?_⟩
    rw [fetchAllGo, if_pos ?_]
    · have : pc = N := by omega
      rw [this]
    · rw [maxPagesGuard_some N pc hN]
      simp
      omega
  | succ m ih =>
    intro c pc hpc
    have hguard : maxPagesGuard (some (N : Int)) pc = false := by
      rw [maxPagesGuard_some N pc hN]
      simp
      omega
    obtain ⟨hdata, hcur⟩ := hcont pc c
    have hcont2 : (!cursorTruthy (f pc c).next_cursor || (f pc c).data.isEmpty) = false := by
      simp [hcur, List.isEmpty_iff, hdata]
    obtain ⟨items, hitems⟩ := ih (f pc c).next_cursor (pc + 1) (by omega)
    refine ⟨(f pc c).data ++ items, ?_⟩
    rw [fetchAllGo, if_neg (by simp [hguard]), if_neg (by simp [hcont2]), hitems]

/-! ## Claims C1, C5, C9, C10 -/

/-- C1: for every finite chain of pages in which each page before the last
has a non-empty item list and a (truthy) cursor and the last page has an
absent cursor or an empty item list, `fetch_all` yields exactly the
concatenation of all pages' items in page order, performs exactly one fetch
attempt per page, and stops through the completed exit. -/
theorem c1_cursor_walk_yields_concatenation (ps : List (APIResponse String))
    (h : pagesChain ps) :
    fetch_all (fun i _ => ps.getD i (sentinelPage String)) none ps.length =
      some ((ps.map APIResponse.data).flatten, ps.length, Outcome.completed) := by
  have := fetchAllGo_chain (fun i _ => ps.getD i (sentinelPage String)) ps 0 none h
    (fun i c' _ => by simp)
  simpa [fetch_all] using this

/-- Witness for `c1_cursor_walk_yields_concatenation`: the spec's
end-to-end scenario — three pages with items `[a,b]`, `[c]`, `[]` and
cursors `"p2"`, `"p3"`, absent — yields `[a,b,c]` and stops with the
completed outcome after exactly 3 fetch attempts. -/
theorem c1_cursor_walk_yields_concatenation_witness :
    pagesChain threePages ∧
    fetch_all (fun i _ => threePages.getD i (sentinelPage String)) none 3 =
      some (["a", "b", "c"], 3, Outcome.completed) := by
  have hchain : pagesChain threePages := by
    simp [threePages, pagesChain, cursorTruthy]
  exact ⟨hchain, c1_cursor_walk_yields_concatenation threePages hchain⟩

/-- C5: for every `N ≥ 1`, running `fetch_all` with `max_pages = N`
performs at most `N` fetch attempts, and when every fetched page would
continue the stream (non-empty items and a truthy cursor), it performs
exactly `N` fetch attempts and stops through the truncated-by-max-pages
exit. -/
theorem c5_max_pages_truncation (N : Nat) (hN : 1 ≤ N)
    (f : Nat → Option String → APIResponse String) :
    (∀ fuel items k o, fetch_all f (some (N : Int)) fuel = some (items, k, o) → k ≤ N) ∧
    ((∀ i c, (f i c).data ≠ [] ∧ cursorTruthy (f i c).next_cursor = true) →
      ∃ items, fetch_all f (some (N : Int)) (N + 1) =
        some (items, N, Outcome.truncatedByMaxPages)) := by
  constructor
  · intro fuel items k o h
    exact fetchAllGo_count_le f N hN fuel none 0 (by omega) items k o h
  · intro hcont
    exact fetchAllGo_truncates f N hN hcont N none 0 (by omega)

/-- Witness for `c5_max_pages_truncation`: `max_pages = 2` against a source
that always reports another page truncates after exactly 2 fetch attempts. -/
theorem c5_max_pages_truncation_witness :
    1 ≤ 2 ∧
    (∀ i c, (endlessFetcher i c).data ≠ [] ∧
      cursorTruthy (endlessFetcher i c).next_cursor = true) ∧
    ∃ items, fetch_all endlessFetcher (some ((2 : Nat) : Int)) 3 =
      some (items, 2, Outcome.truncatedByMaxPages) := by
  have hcont : ∀ i c, (endlessFetcher i c).data ≠ [] ∧
      cursorTruthy (endlessFetcher i c).next_cursor = true := by
    intro i c
    exact ⟨by simp [endlessFetcher], by simp [endlessFetcher, cursorTruthy]⟩
  exact ⟨by omega, hcont, (c5_max_pages_truncation 2 (by omega) endlessFetcher).2 hcont⟩

/-- C9: the walker loop of `fetch_all` has no cancellation support. Its
source checks only the `max_pages` guard and the cursor/items termination
rule; against a source that always reports another page, with `max_pages`
unset, the loop never exits within any number of iterations from any loop
state — there is no caller-supplied signal that could stop it, and the
loop's exit paths (`Outcome`) are only completed and truncated-by-max-pages,
with no distinct cancelled status. -/
theorem c9_no_cancellation_unbounded_loop :
    ∀ (fuel : Nat) (c : Option String) (pc : Nat),
      fetchAllGo endlessFetcher none fuel c pc = none := by
  intro fuel
  induction fuel with
  | zero => intro c pc; rfl
  | succ m ih =>
    intro c pc
    have hc : (!cursorTruthy (endlessFetcher pc c).next_cursor
        || (endlessFetcher pc c).data.isEmpty) = false := by
      simp [endlessFetcher, cursorTruthy]
    rw [fetchAllGo, if_neg (by simp [maxPagesGuard]), if_neg (by simp [hc]), ih]

/-- C10: `fetch_all` with `max_pages = 0` behaves exactly like
`max_pages = None`: the guard `if max_pages and page_count >= max_pages`
treats the falsy value `0` as unset, so the two runs coincide from every
loop state, for every source and every number of iterations. -/
theorem c10_max_pages_zero_is_unset (f : Nat → Option String → APIResponse String) :
    ∀ (fuel : Nat) (c : Option String) (pc : Nat),
      fetchAllGo f (some 0) fuel c pc = fetchAllGo f none fuel c pc := by
  intro fuel
  induction fuel with
  | zero => intro c pc; rfl
  | succ m ih =>
    intro c pc
    have h0 : maxPagesGuard (some 0) pc = false := by
      simp [maxPagesGuard]
    rw [fetchAllGo, if_neg (by simp [h0])]
    conv_rhs => rw [fetchAllGo, if_neg (by simp [maxPagesGuard])]
    rw [ih]

/-- The `results` dict built by `fetch_parallel` maps a key to the handled
future outcome of that key's own fetch when the key occurs in the
completion order, and is otherwise untouched: overwrites are idempotent
because each endpoint's recorded value depends only on that endpoint. -/
theorem fetch_parallel_foldl_lookup {α : Type}
    (fetchResult : String → Except PyError (APIResponse α)) :
    ∀ (order : List String) (acc : String → Option (APIResponse α)) (k : String),
      (order.foldl
        (fun results ep => fun k' =>
          if k' = ep then some (handleFuture (fetchResult ep)) else results k')
        acc) k =
      if k ∈ order then some (handleFuture (fetchResult k)) else acc k := by
  intro order
  induction order with
  | nil => intro acc k; simp
  | cons ep rest ih =>
    intro acc k
    rw [List.foldl_cons, ih]
    by_cases hmem : k ∈ rest
    · simp [hmem]
    · by_cases hk : k = ep
      · subst hk
        simp [hmem]
      · simp [hmem, hk]

/-- The result map of `fetch_parallel` is the pointwise function sending
each endpoint occurring in the completion order to its own handled fetch
outcome, and every other key to nothing. -/
theorem fetch_parallel_lookup {α : Type}
    (fetchResult : String → Except PyError (APIResponse α))
    (order : List String) (k : String) :
    fetch_parallel fetchResult order k =
      if k ∈ order then some (handleFuture (fetchResult k)) else none := by
  unfold fetch_parallel
  exact fetch_parallel_foldl_lookup fetchResult order (fun _ => none) k

/-! ## Claims C7 and C8 -/

/-- C7: in a fan-out run over a list of endpoints in which exactly one
endpoint's fetch fails (its future raises), the coordinator catches the
failure and records the sentinel empty response for that endpoint, and
every other endpoint's entry is exactly the page its own fetch returned —
for any order in which the futures complete. -/
theorem c7_failure_isolation {α : Type}
    (fetchResult : String → Except PyError (APIResponse α))
    (endpoints order : List String) (bad : String) (e : PyError)
    (hperm : order.Perm endpoints) (hbadmem : bad ∈ endpoints)
    (hbad : fetchResult bad = Except.error e) :
    fetch_parallel fetchResult order bad =
      some { data := [], next_cursor := none, total_count := none,
             rate_limit_remaining := 0 } ∧
    ∀ ep ∈ endpoints, ep ≠ bad → ∀ page, fetchResult ep = Except.ok page →
      fetch_parallel fetchResult order ep = some page := by
  constructor
  · rw [fetch_parallel_lookup, if_pos (hperm.mem_iff.mpr hbadmem), hbad]
    rfl
  · intro ep hep _ page hpage
    rw [fetch_parallel_lookup, if_pos (hperm.mem_iff.mpr hep), hpage]
    rfl

/-- Witness for `c7_failure_isolation`: three endpoints of which `"b"`
always fails, completing in the order `c, a, b`; the siblings `"a"` and
`"c"` get their full pages and `"b"` gets the sentinel. -/
theorem c7_failure_isolation_witness :
    (["c", "a", "b"] : List String).Perm ["a", "b", "c"] ∧
    ("b" : String) ∈ (["a", "b", "c"] : List String) ∧
    oneFailingFetch "b" = Except.error PyError.attributeError ∧
    (fetch_parallel oneFailingFetch ["c", "a", "b"] "b" =
      some { data := [], next_cursor := none, total_count := none,
             rate_limit_remaining := 0 } ∧
    ∀ ep ∈ (["a", "b", "c"] : List String), ep ≠ "b" →
      ∀ page, oneFailingFetch ep = Except.ok page →
        fetch_parallel oneFailingFetch ["c", "a", "b"] ep = some page) := by
  refine ⟨by decide, by decide, by simp [oneFailingFetch], ?_⟩
  exact c7_failure_isolation oneFailingFetch ["a", "b", "c"] ["c", "a", "b"] "b"
    PyError.attributeError (by decide) (by decide) (by simp [oneFailingFetch])

/-- C8: for a fixed set of endpoints, the result map of `fetch_parallel` is
independent of the order in which the concurrent fetches complete — any two
completion orders that are permutations of the endpoint list produce the
same map — and the keys carrying a result are exactly the endpoints. -/
theorem c8_result_map_order_independent {α : Type}
    (fetchResult : String → Except PyError (APIResponse α))
    (endpoints o1 o2 : List String)
    (h1 : o1.Perm endpoints) (h2 : o2.Perm endpoints) :
    (∀ k, fetch_parallel fetchResult o1 k = fetch_parallel fetchResult o2 k) ∧
    (∀ k, (fetch_parallel fetchResult o1 k).isSome = true ↔ k ∈ endpoints) := by
  constructor
  · intro k
    rw [fetch_parallel_lookup, fetch_parallel_lookup]
    by_cases hk : k ∈ endpoints
    · rw [if_pos (h1.mem_iff.mpr hk), if_pos (h2.mem_iff.mpr hk)]
    · rw [if_neg (fun hm => hk (h1.mem_iff.mp hm)),
        if_neg (fun hm => hk (h2.mem_iff.mp hm))]
  · intro k
    rw [fetch_parallel_lookup]
    by_cases hk : k ∈ endpoints
    · simp [h1.mem_iff.mpr hk, hk]
    · have h1k : k ∉ o1 := fun hm => hk (h1.mem_iff.mp hm)
      simp [h1k, hk]

/-- Witness for `c8_result_map_order_independent`: two reorderings of the
same three endpoints. -/
theorem c8_result_map_order_independent_witness :
    (["b", "c", "a"] : List String).Perm ["a", "b", "c"] ∧
    (["c", "a", "b"] : List String).Perm ["a", "b", "c"] ∧
    ((∀ k, fetch_parallel allOkFetch ["b", "c", "a"] k =
        fetch_parallel allOkFetch ["c", "a", "b"] k) ∧
    (∀ k, (fetch_parallel allOkFetch ["b", "c", "a"] k).isSome = true ↔
      k ∈ (["a", "b", "c"] : List String))) := by
  refine ⟨by decide, by decide, ?_⟩
  exact c8_result_map_order_independent allOkFetch
    ["a", "b", "c"] ["b", "c", "a"] ["c", "a", "b"] (by decide) (by decide)

end RestPagination
